import Mathlib

/-!
Shallow embedding of the github-project-automation scripts
(`fetch_issue.py`, `select_issue.py`, `update_status.py`).

Strings are processed at the `List Char` level with structural
functions mirroring the Python string/regex operations, so that every
definition evaluates by kernel reduction.  External calls (`gh` CLI
invocations) are modelled as environment functions returning
`Except String _`: an `.error` value stands for a raised
`CalledProcessError` / `JSONDecodeError`.
-/

/-- Python `\s` character class (ASCII): space, tab, newline, carriage
return, vertical tab, form feed. -/
def py_ws (c : Char) : Bool :=
  c = ' ' || c = '\t' || c = '\n' || c = '\r' || c = '\x0b' || c = '\x0c'

/-- Python `str.strip()` on a character list: drop whitespace from both
ends. -/
def py_strip (cs : List Char) : List Char :=
  ((cs.dropWhile py_ws).reverse.dropWhile py_ws).reverse

/-- Python `str.split("\n")` accumulator loop. -/
def split_lines_go : List Char → List Char → List (List Char)
  | [], acc => [acc.reverse]
  | c :: cs, acc =>
    if c = '\n' then acc.reverse :: split_lines_go cs []
    else split_lines_go cs (c :: acc)

/-- Python `body.split("\n")`. -/
def split_lines (cs : List Char) : List (List Char) :=
  split_lines_go cs []

/-- `needle` occurs as a contiguous substring of the haystack
(Python `re.search` with a literal pattern). -/
def contains_sub (needle : List Char) : List Char → Bool
  | [] => needle.isEmpty
  | c :: cs => needle.isPrefixOf (c :: cs) || contains_sub needle cs

/-- The literal searched for by
`re.search(r'acceptance criteria', line, re.IGNORECASE)`. -/
def ac_header : List Char := "acceptance criteria".toList

/-- `re.search(r'acceptance criteria', line, re.IGNORECASE)` succeeds:
case-insensitive substring test, realized by lower-casing the line. -/
def contains_ac_header (line : List Char) : Bool :=
  contains_sub ac_header (line.map Char.toLower)

/-- One parsed acceptance-criteria item: `{"checked": ..., "text": ...}`. -/
structure Criterion where
  checked : Bool
  text : String
deriving DecidableEq, Repr

/-- `re.match(r'^\s*-\s*\[([ xX])\]\s*(.+)$', line)` followed by
`checked = group(1).lower() == 'x'`, `text = group(2).strip()`.
The regex matches iff after `- [<marker>]` at least one character
remains; backtracking over `\s*(.+)` followed by `.strip()` makes the
resulting text the stripped remainder. -/
def match_checkbox (line : List Char) : Option (Bool × List Char) :=
  match line.dropWhile py_ws with
  | '-' :: rest =>
    match rest.dropWhile py_ws with
    | '[' :: m :: ']' :: rest2 =>
      if (m = ' ' || m = 'x' || m = 'X') && !rest2.isEmpty then
        some (m = 'x' || m = 'X', py_strip rest2)
      else none
    | _ => none
  | _ => none

/-- The line loop of `parse_acceptance_criteria`: the `Bool` is
`in_criteria_section`, the accumulator is `criteria`.  Returning `acc`
on a `#` line is the `break`. -/
def criteria_loop : List (List Char) → Bool → List Criterion → List Criterion
  | [], _, acc => acc
  | line :: rest, in_sec, acc =>
    if contains_ac_header line then criteria_loop rest true acc
    else if in_sec then
      match match_checkbox line with
      | some (ck, txt) => criteria_loop rest in_sec (acc ++ [⟨ck, ⟨txt⟩⟩])
      | none =>
        if line.all py_ws then criteria_loop rest in_sec acc
        else if line.head? = some '#' then acc
        else criteria_loop rest in_sec acc
    else criteria_loop rest in_sec acc

/-- `parse_acceptance_criteria(body)` from `fetch_issue.py`. -/
def parse_acceptance_criteria (body : String) : List Criterion :=
  if body = "" then []
  else criteria_loop (split_lines body.toList) false []

/-- A label object as returned by the tracker (`label.get("name", "")`
reads the `name` field). -/
structure GLabel where
  name : String
deriving DecidableEq, Repr

/-- `extract_label(labels, prefix)` from `fetch_issue.py`: suffix of the
first label whose name starts with the prefix (`name.startswith(prefix)`
then `name[len(prefix):]`). -/
def extract_label (labels : List GLabel) (pre : String) : Option String :=
  match labels with
  | [] => none
  | label :: rest =>
    if pre.toList.isPrefixOf label.name.toList then
      some ⟨label.name.toList.drop pre.toList.length⟩
    else extract_label rest pre

/-- Python truthiness of a `str | None` value: `None` and `""` are falsy. -/
def py_falsy_opt (s : Option String) : Bool :=
  s = none || s = some ""

/-- The structured issue record built by `fetch_issue`. -/
structure FIssue where
  number : Nat
  title : String
  body : String
  acceptance_criteria : List Criterion
  epic : Option String
  priority : Option String
  status : Option String
  type : Option String
  assignees : List String
  milestone : Option String
  state : String
  url : String
deriving DecidableEq, Repr

/-- `validate_issue(issue)` from `fetch_issue.py`: returns
`(is_valid, warnings)`. -/
def validate_issue (issue : FIssue) : Bool × List String :=
  let w0 : List String := []
  let w1 := if issue.state = "CLOSED" then w0 ++ ["⚠️  Issue is closed"] else w0
  let w2 := if issue.assignees.isEmpty then w1
    else w1 ++ ["⚠️  Already assigned to: " ++ String.intercalate ", " issue.assignees]
  let w3 := if issue.acceptance_criteria.isEmpty then
    w2 ++ ["⚠️  No acceptance criteria found in issue body"] else w2
  let w4 := if py_falsy_opt issue.epic then w3 ++ ["⚠️  No epic label found"] else w3
  let w5 := if py_falsy_opt issue.priority then w4 ++ ["⚠️  No priority label found"] else w4
  (issue.state = "OPEN", w5)

/-! ## `select_issue.py` -/

/-- An issue row as returned by
`gh issue list --json number,title,createdAt,labels,assignees`. -/
structure SIssue where
  number : Nat
  title : String
  createdAt : String
  labels : List GLabel
  assignees : List String
deriving DecidableEq, Repr

/-- The tracker collaborator behind `gh issue list --state open
--label ... --json ... `: keyed by the label filter list the script
builds; `.error` models a `CalledProcessError`/`JSONDecodeError`. -/
structure SelEnv where
  listIssues : List String → Except String (List SIssue)

/-- `PRIORITY_ORDER` from `select_issue.py`. -/
def PRIORITY_ORDER : List String := ["critical", "high", "medium", "low"]

/-- The label filter list built by `select_next_issue`:
`[f"priority:{priority}", f"status:{status}"]` plus
`f"epic:{epic_filter}"` when an epic filter is given. -/
def query_labels (priority : String) (epic_filter : Option String)
    (status : String) : List String :=
  ["priority:" ++ priority, "status:" ++ status] ++
    (match epic_filter with
     | some e => ["epic:" ++ e]
     | none => [])

/-- Codepoint of a character, for jq's lexicographic string order. -/
def char_nat (c : Char) : Nat := c.val.toNat

/-- Lexicographic `≤` on codepoint lists: the string order used by
`--jq "sort_by(.createdAt)"`. -/
def lex_le : List Char → List Char → Bool
  | [], _ => true
  | _ :: _, [] => false
  | a :: as, b :: bs =>
    if char_nat a < char_nat b then true
    else if char_nat b < char_nat a then false
    else lex_le as bs

/-- `a` was created no later than `b`. -/
def created_le (a b : SIssue) : Bool :=
  lex_le a.createdAt.toList b.createdAt.toList

/-- Stable insertion into a list sorted by creation date. -/
def sort_insert (x : SIssue) : List SIssue → List SIssue
  | [] => [x]
  | y :: ys => if created_le y x then y :: sort_insert x ys else x :: y :: ys

/-- `sort_by(.createdAt)`: the stable sort the script requests from jq. -/
def sort_by_createdAt : List SIssue → List SIssue
  | [] => []
  | x :: xs => sort_insert x (sort_by_createdAt xs)

/-- `select_next_issue` from `select_issue.py`: one tier query; a failed
or unparseable call yields `none`, otherwise the head of the
creation-date-sorted result (`issues[0] if issues else None`). -/
def select_next_issue (env : SelEnv) (priority : String)
    (epic_filter : Option String) (status : String) : Option SIssue :=
  match env.listIssues (query_labels priority epic_filter status) with
  | .error _ => none
  | .ok issues => (sort_by_createdAt issues).head?

/-- The tier loop of `select_with_fallback`. -/
def fallback_go (env : SelEnv) (epic_filter : Option String)
    (status : String) : List String → Option SIssue
  | [] => none
  | p :: ps =>
    match select_next_issue env p epic_filter status with
    | some issue => some issue
    | none => fallback_go env epic_filter status ps

/-- `select_with_fallback` from `select_issue.py`. -/
def select_with_fallback (env : SelEnv) (epic_filter : Option String)
    (status : String) : Option SIssue :=
  fallback_go env epic_filter status PRIORITY_ORDER

/-- Trace of the tiers the fallback loop actually queries: it consults
each tier in order and stops with the first tier whose query returns an
issue. -/
def queried_tiers_go (env : SelEnv) (epic_filter : Option String)
    (status : String) : List String → List String
  | [] => []
  | p :: ps =>
    if (select_next_issue env p epic_filter status).isSome then [p]
    else p :: queried_tiers_go env epic_filter status ps

/-- Tiers queried by a full `select_with_fallback` run. -/
def fallback_queried_tiers (env : SelEnv) (epic_filter : Option String)
    (status : String) : List String :=
  queried_tiers_go env epic_filter status PRIORITY_ORDER

/-- The selection step of `main` in `select_issue.py`: an explicit
`--priority` argument queries exactly that tier, otherwise the cascade
runs. -/
def main_select (env : SelEnv) (priority_arg : Option String)
    (epic_arg : Option String) (status_arg : String) : Option SIssue :=
  match priority_arg with
  | some p => select_next_issue env p epic_arg status_arg
  | none => select_with_fallback env epic_arg status_arg

/-- Tiers queried by `main`: one tier for an explicit priority, the
cascade trace otherwise. -/
def main_queried_tiers (env : SelEnv) (priority_arg : Option String)
    (epic_arg : Option String) (status_arg : String) : List String :=
  match priority_arg with
  | some p => [p]
  | none => fallback_queried_tiers env epic_arg status_arg

/-- The terminal exit status of `main` in `select_issue.py`:
`sys.exit(0)` when an issue was selected, `sys.exit(1)` otherwise. -/
def main_exit (env : SelEnv) (priority_arg : Option String)
    (epic_arg : Option String) (status_arg : String) : Nat :=
  match main_select env priority_arg epic_arg status_arg with
  | some _ => 0
  | none => 1

/-! ## `update_status.py` -/

/-- A node of `projectItems` in the GraphQL response of
`get_project_item_id`. -/
structure ProjectItemNode where
  id : String
  projectNumber : Int
deriving DecidableEq, Repr

/-- Lookup in the Python dict `{opt["name"]: opt["id"] for opt in ...}`:
on duplicate names the last entry wins. -/
def dict_get (m : List (String × String)) (k : String) : Option String :=
  (m.reverse.find? (fun p => decide (p.1 = k))).map (fun p => p.2)

/-- Python `a or b` on `str | None` operands: `None` and `""` are falsy. -/
def py_or (a b : Option String) : Option String :=
  match a with
  | some s => if s = "" then b else some s
  | none => b

/-- The `LABEL_TO_STATUS` dict of `update_status.py`, as a lookup from a
label to its entry (`none` = label is not a key; `some v` = the stored
`str | None` value). `option_map` is the options list of the Status
field. -/
def label_to_status (option_map : List (String × String)) (label : String) :
    Option (Option String) :=
  if label = "status:backlog" then
    some (py_or (dict_get option_map "Todo") (dict_get option_map "Backlog"))
  else if label = "status:in-progress" then
    some (py_or (dict_get option_map "In Progress") (dict_get option_map "In progress"))
  else if label = "status:done" then
    some (dict_get option_map "Done")
  else none

/-- The label-scanning loop of `main`: the first label that is a key of
`LABEL_TO_STATUS` (key membership does not depend on the stored
values). -/
def find_status_label (option_map : List (String × String))
    (labels : List String) : Option String :=
  labels.find? (fun l => (label_to_status option_map l).isSome)

/-- `get_project_item_id`: first project item whose parent project
number matches. -/
def get_project_item_id (nodes : List ProjectItemNode)
    (project_number : Int) : Option String :=
  (nodes.find? (fun it => decide (it.projectNumber = project_number))).map
    (fun it => it.id)

/-- Per-issue slice of the external world consulted by one iteration of
the reconciliation loop; each `Except` models one `gh` call. -/
structure IssueEnv where
  labels : Except String (List String)
  projectItems : Except String (List ProjectItemNode)
  updateResult : Except String Unit
deriving Repr

/-- How one loop iteration of `main` in `update_status.py` classifies an
issue. -/
inductive Outcome
  | updated
  | skipped
  | errored
deriving DecidableEq, Repr

/-- One iteration of the `for issue_number in range(...)` loop of
`update_status.py`'s `main`, with the `try`/`except` folded in: any
`.error` from an external call lands in the `except` branch. -/
def processIssue (option_map : List (String × String))
    (project_number : Int) (env : IssueEnv) : Outcome :=
  match env.labels with
  | .error _ => .errored
  | .ok labels =>
    match find_status_label option_map labels with
    | none => .skipped
    | some status_label =>
      match env.projectItems with
      | .error _ => .errored
      | .ok nodes =>
        match get_project_item_id nodes project_number with
        | none => .errored
        | some item_id =>
          if item_id = "" then .errored
          else
            match label_to_status option_map status_label with
            | none => .errored
            | some option_id =>
              if py_falsy_opt option_id then .errored
              else
                match env.updateResult with
                | .error _ => .errored
                | .ok _ => .updated

/-- The summary counters of the reconciliation run. -/
structure Summary where
  updated : Nat
  skipped : Nat
  errors : Nat
deriving DecidableEq, Repr

/-- Counter update for one issue's outcome. -/
def recon_step (option_map : List (String × String)) (project_number : Int)
    (envOf : Nat → IssueEnv) (s : Summary) (n : Nat) : Summary :=
  match processIssue option_map project_number (envOf n) with
  | .updated => ⟨s.updated + 1, s.skipped, s.errors⟩
  | .skipped => ⟨s.updated, s.skipped + 1, s.errors⟩
  | .errored => ⟨s.updated, s.skipped, s.errors + 1⟩

/-- `range(START_ISSUE, END_ISSUE + 1)`. -/
def issue_range (start stop : Nat) : List Nat :=
  List.range' start (stop + 1 - start)

/-- Run the reconciliation counters over a list of issue numbers. -/
def run_counts (option_map : List (String × String)) (project_number : Int)
    (envOf : Nat → IssueEnv) (l : List Nat) : Summary :=
  l.foldl (recon_step option_map project_number envOf) ⟨0, 0, 0⟩

/-- The reconciliation loop of `main` in `update_status.py`: the final
`{updated, skipped, errors}` summary over the inclusive issue range. -/
def reconcile (option_map : List (String × String)) (project_number : Int)
    (envOf : Nat → IssueEnv) (start stop : Nat) : Summary :=
  run_counts option_map project_number envOf (issue_range start stop)

/-! ## Reconciler lemmas -/

/-- Number of issues in `l` that the reconciliation loop classifies with
outcome `o`. -/
def count_outcome (option_map : List (String × String)) (project_number : Int)
    (envOf : Nat → IssueEnv) (o : Outcome) (l : List Nat) : Nat :=
  l.countP (fun n => decide (processIssue option_map project_number (envOf n) = o))

lemma count_outcome_congr (om : List (String × String)) (pn : Int)
    (f g : Nat → IssueEnv) (o : Outcome) (l : List Nat)
    (h : ∀ n ∈ l, f n = g n) :
    count_outcome om pn f o l = count_outcome om pn g o l :=
  List.countP_congr (fun n hn => by rw [h n hn])

lemma foldl_recon_counts (om : List (String × String)) (pn : Int)
    (envOf : Nat → IssueEnv) (l : List Nat) :
    ∀ s : Summary,
      l.foldl (recon_step om pn envOf) s =
        ⟨s.updated + count_outcome om pn envOf .updated l,
         s.skipped + count_outcome om pn envOf .skipped l,
         s.errors + count_outcome om pn envOf .errored l⟩ := by
  induction l with
  | nil => intro s; simp [count_outcome]
  | cons n t ih =>
    intro s
    rw [List.foldl_cons, ih]
    cases h : processIssue om pn (envOf n) <;>
      simp [recon_step, h, count_outcome, List.countP_cons] <;> omega

lemma run_counts_eq (om : List (String × String)) (pn : Int)
    (envOf : Nat → IssueEnv) (l : List Nat) :
    run_counts om pn envOf l =
      ⟨count_outcome om pn envOf .updated l,
       count_outcome om pn envOf .skipped l,
       count_outcome om pn envOf .errored l⟩ := by
  simpa [run_counts] using foldl_recon_counts om pn envOf l ⟨0, 0, 0⟩

lemma count_outcome_total (om : List (String × String)) (pn : Int)
    (envOf : Nat → IssueEnv) (l : List Nat) :
    count_outcome om pn envOf .updated l + count_outcome om pn envOf .skipped l
      + count_outcome om pn envOf .errored l = l.length := by
  induction l with
  | nil => simp [count_outcome]
  | cons n t ih =>
    cases h : processIssue om pn (envOf n) <;>
      simp [count_outcome, List.countP_cons, h] at ih ⊢ <;> omega

lemma run_counts_take_succ (om : List (String × String)) (pn : Int)
    (envOf : Nat → IssueEnv) (l : List Nat) (k : Nat) (hk : k < l.length) :
    run_counts om pn envOf (l.take (k + 1)) =
      recon_step om pn envOf (run_counts om pn envOf (l.take k)) l[k] := by
  have h : l.take (k + 1) = l.take k ++ [l[k]] := by
    rw [List.take_succ, List.getElem?_eq_getElem hk]; rfl
  rw [run_counts, run_counts, h, List.foldl_append]
  rfl

/-- The concrete Status-field options used by the end-to-end scenario. -/
def om0 : List (String × String) :=
  [("Todo", "optTodo"), ("In Progress", "optProg"), ("Done", "optDone")]

/-- Per-issue environment of the 5-issue end-to-end scenario: issue 1
has `status:backlog` with a matching board item, issue 2 has
`status:done` with a matching board item, issue 3 has no status label,
issue 4 has a status label but only a board item of a different project,
and issue 5's label fetch raises. -/
def env0 : Nat → IssueEnv := fun n =>
  if n = 1 then ⟨.ok ["status:backlog"], .ok [⟨"item1", 4⟩], .ok ()⟩
  else if n = 2 then ⟨.ok ["status:done"], .ok [⟨"item2", 4⟩], .ok ()⟩
  else if n = 3 then ⟨.ok ["type:bug"], .ok [⟨"item3", 4⟩], .ok ()⟩
  else if n = 4 then ⟨.ok ["status:backlog"], .ok [⟨"item4", 7⟩], .ok ()⟩
  else ⟨.error "transport failure", .ok [], .ok ()⟩

/-- C1: over the 5-issue scenario range the reconciler reports
`updated = 2, skipped = 1, errors = 2`; an issue without a status label
is skipped without consulting the board or issuing an update (the
outcome is `skipped` for every possible board/update environment), and
the issue whose board items all belong to a different project is an
error. -/
theorem reconcile_end_to_end :
    reconcile om0 4 env0 1 5 = ⟨2, 1, 2⟩
    ∧ (∀ pi ur, processIssue om0 4 ⟨.ok ["type:bug"], pi, ur⟩ = .skipped)
    ∧ processIssue om0 4 (env0 4) = .errored :=
  ⟨by decide, fun pi ur => rfl, by decide⟩

/-- C10: every issue of the inclusive range increments exactly one of
the three counters, so the final counts sum to `END - START + 1`
(`0` for an empty range), and no counter ever decreases as the run
progresses. -/
theorem reconcile_counter_partition (om : List (String × String)) (pn : Int)
    (envOf : Nat → IssueEnv) (start stop : Nat) :
    ((reconcile om pn envOf start stop).updated
        + (reconcile om pn envOf start stop).skipped
        + (reconcile om pn envOf start stop).errors = stop + 1 - start)
    ∧ (∀ k, k < (issue_range start stop).length →
        ((run_counts om pn envOf ((issue_range start stop).take (k + 1))).updated
            = (run_counts om pn envOf ((issue_range start stop).take k)).updated + 1
          ∧ (run_counts om pn envOf ((issue_range start stop).take (k + 1))).skipped
            = (run_counts om pn envOf ((issue_range start stop).take k)).skipped
          ∧ (run_counts om pn envOf ((issue_range start stop).take (k + 1))).errors
            = (run_counts om pn envOf ((issue_range start stop).take k)).errors)
        ∨ ((run_counts om pn envOf ((issue_range start stop).take (k + 1))).updated
            = (run_counts om pn envOf ((issue_range start stop).take k)).updated
          ∧ (run_counts om pn envOf ((issue_range start stop).take (k + 1))).skipped
            = (run_counts om pn envOf ((issue_range start stop).take k)).skipped + 1
          ∧ (run_counts om pn envOf ((issue_range start stop).take (k + 1))).errors
            = (run_counts om pn envOf ((issue_range start stop).take k)).errors)
        ∨ ((run_counts om pn envOf ((issue_range start stop).take (k + 1))).updated
            = (run_counts om pn envOf ((issue_range start stop).take k)).updated
          ∧ (run_counts om pn envOf ((issue_range start stop).take (k + 1))).skipped
            = (run_counts om pn envOf ((issue_range start stop).take k)).skipped
          ∧ (run_counts om pn envOf ((issue_range start stop).take (k + 1))).errors
            = (run_counts om pn envOf ((issue_range start stop).take k)).errors + 1))
    ∧ (∀ k,
        (run_counts om pn envOf ((issue_range start stop).take k)).updated
          ≤ (run_counts om pn envOf ((issue_range start stop).take (k + 1))).updated
        ∧ (run_counts om pn envOf ((issue_range start stop).take k)).skipped
          ≤ (run_counts om pn envOf ((issue_range start stop).take (k + 1))).skipped
        ∧ (run_counts om pn envOf ((issue_range start stop).take k)).errors
          ≤ (run_counts om pn envOf ((issue_range start stop).take (k + 1))).errors) := by
  have hstep : ∀ k, k < (issue_range start stop).length →
      ((run_counts om pn envOf ((issue_range start stop).take (k + 1))).updated
          = (run_counts om pn envOf ((issue_range start stop).take k)).updated + 1
        ∧ (run_counts om pn envOf ((issue_range start stop).take (k + 1))).skipped
          = (run_counts om pn envOf ((issue_range start stop).take k)).skipped
        ∧ (run_counts om pn envOf ((issue_range start stop).take (k + 1))).errors
          = (run_counts om pn envOf ((issue_range start stop).take k)).errors)
      ∨ ((run_counts om pn envOf ((issue_range start stop).take (k + 1))).updated
          = (run_counts om pn envOf ((issue_range start stop).take k)).updated
        ∧ (run_counts om pn envOf ((issue_range start stop).take (k + 1))).skipped
          = (run_counts om pn envOf ((issue_range start stop).take k)).skipped + 1
        ∧ (run_counts om pn envOf ((issue_range start stop).take (k + 1))).errors
          = (run_counts om pn envOf ((issue_range start stop).take k)).errors)
      ∨ ((run_counts om pn envOf ((issue_range start stop).take (k + 1))).updated
          = (run_counts om pn envOf ((issue_range start stop).take k)).updated
        ∧ (run_counts om pn envOf ((issue_range start stop).take (k + 1))).skipped
          = (run_counts om pn envOf ((issue_range start stop).take k)).skipped
        ∧ (run_counts om pn envOf ((issue_range start stop).take (k + 1))).errors
          = (run_counts om pn envOf ((issue_range start stop).take k)).errors + 1) := by
    intro k hk
    rw [run_counts_take_succ om pn envOf _ k hk]
    cases h : processIssue om pn (envOf ((issue_range start stop)[k])) with
    | updated => exact Or.inl (by simp [recon_step, h])
    | skipped => exact Or.inr (Or.inl (by simp [recon_step, h]))
    | errored => exact Or.inr (Or.inr (by simp [recon_step, h]))
  refine ⟨?_, hstep, ?_⟩
  · have h1 := run_counts_eq om pn envOf (issue_range start stop)
    have h2 := count_outcome_total om pn envOf (issue_range start stop)
    have h3 : (issue_range start stop).length = stop + 1 - start := by
      rw [issue_range, List.length_range']
    rw [reconcile, h1]
    simpa using h2.trans h3
  · intro k
    by_cases hk : k < (issue_range start stop).length
    · rcases hstep k hk with ⟨h1, h2, h3⟩ | ⟨h1, h2, h3⟩ | ⟨h1, h2, h3⟩ <;>
        exact ⟨by omega, by omega, by omega⟩
    · have hle : (issue_range start stop).length ≤ k := Nat.le_of_not_lt hk
      rw [List.take_of_length_le hle, List.take_of_length_le (hle.trans (Nat.le_succ k))]
      exact ⟨Nat.le_refl _, Nat.le_refl _, Nat.le_refl _⟩

/-- C2: if issue `N`'s processing fails (any failing external call lands
in the `except` branch, giving outcome `errored`), the run still counts
every other issue exactly as in a run where issue `N` succeeds: the
error count is one higher, the update count one lower, the skip count
identical, and the per-outcome counts over the issues after `N` are
unchanged. -/
theorem reconcile_fault_isolation (om : List (String × String)) (pn : Int)
    (envOf envOf' : Nat → IssueEnv) (start stop N : Nat)
    (hmem : N ∈ issue_range start stop)
    (hagree : ∀ n, n ≠ N → envOf n = envOf' n)
    (herr : processIssue om pn (envOf N) = .errored)
    (hsucc : processIssue om pn (envOf' N) = .updated) :
    (reconcile om pn envOf start stop).errors
        = (reconcile om pn envOf' start stop).errors + 1
    ∧ (reconcile om pn envOf start stop).updated + 1
        = (reconcile om pn envOf' start stop).updated
    ∧ (reconcile om pn envOf start stop).skipped
        = (reconcile om pn envOf' start stop).skipped
    ∧ (∀ o : Outcome,
        count_outcome om pn envOf o
            ((issue_range start stop).filter (fun n => decide (N < n)))
          = count_outcome om pn envOf' o
            ((issue_range start stop).filter (fun n => decide (N < n)))) := by
  obtain ⟨l₁, l₂, hdec⟩ := List.append_of_mem hmem
  have hnd : (issue_range start stop).Nodup := by
    rw [issue_range]; exact List.nodup_range' _ _
  rw [hdec, List.nodup_append] at hnd
  have hN1 : N ∉ l₁ := (List.disjoint_cons_right.mp hnd.2.2).1
  have hN2 : N ∉ l₂ := (List.nodup_cons.mp hnd.2.1).1
  have hc1 : ∀ o, count_outcome om pn envOf o l₁ = count_outcome om pn envOf' o l₁ :=
    fun o => count_outcome_congr om pn envOf envOf' o l₁
      (fun n hn => hagree n (fun he => hN1 (he ▸ hn)))
  have hc2 : ∀ o, count_outcome om pn envOf o l₂ = count_outcome om pn envOf' o l₂ :=
    fun o => count_outcome_congr om pn envOf envOf' o l₂
      (fun n hn => hagree n (fun he => hN2 (he ▸ hn)))
  have hsplit : ∀ (f : Nat → IssueEnv) (o : Outcome),
      count_outcome om pn f o (issue_range start stop)
        = count_outcome om pn f o l₁ + count_outcome om pn f o [N]
          + count_outcome om pn f o l₂ := by
    intro f o
    simp only [count_outcome, hdec]
    rw [← List.singleton_append, List.countP_append, List.countP_append]
    omega
  have uN : count_outcome om pn envOf Outcome.updated [N] = 0 := by
    simp [count_outcome, List.countP_cons, herr]
  have sN : count_outcome om pn envOf Outcome.skipped [N] = 0 := by
    simp [count_outcome, List.countP_cons, herr]
  have eN : count_outcome om pn envOf Outcome.errored [N] = 1 := by
    simp [count_outcome, List.countP_cons, herr]
  have uN' : count_outcome om pn envOf' Outcome.updated [N] = 1 := by
    simp [count_outcome, List.countP_cons, hsucc]
  have sN' : count_outcome om pn envOf' Outcome.skipped [N] = 0 := by
    simp [count_outcome, List.countP_cons, hsucc]
  have eN' : count_outcome om pn envOf' Outcome.errored [N] = 0 := by
    simp [count_outcome, List.countP_cons, hsucc]
  have hrec : ∀ f : Nat → IssueEnv, reconcile om pn f start stop =
      ⟨count_outcome om pn f .updated (issue_range start stop),
       count_outcome om pn f .skipped (issue_range start stop),
       count_outcome om pn f .errored (issue_range start stop)⟩ :=
    fun f => run_counts_eq om pn f (issue_range start stop)
  refine ⟨?_, ?_, ?_, ?_⟩
  · rw [hrec envOf, hrec envOf']
    dsimp only
    rw [hsplit envOf Outcome.errored, hsplit envOf' Outcome.errored, eN, eN',
      hc1 Outcome.errored, hc2 Outcome.errored]
    omega
  · rw [hrec envOf, hrec envOf']
    dsimp only
    rw [hsplit envOf Outcome.updated, hsplit envOf' Outcome.updated, uN, uN',
      hc1 Outcome.updated, hc2 Outcome.updated]
    omega
  · rw [hrec envOf, hrec envOf']
    dsimp only
    rw [hsplit envOf Outcome.skipped, hsplit envOf' Outcome.skipped, sN, sN',
      hc1 Outcome.skipped, hc2 Outcome.skipped]
  · intro o
    refine count_outcome_congr om pn envOf envOf' o _ (fun n hn => ?_)
    rcases List.mem_filter.mp hn with ⟨-, hlt⟩
    have hlt' : N < n := of_decide_eq_true hlt
    exact hagree n (by omega)

/-- Shared baseline environment for the fault-isolation witness: issue 1
updates, issue 3 is skipped, every other issue updates. -/
def env_c2_base : Nat → IssueEnv := fun n =>
  if n = 1 then ⟨.ok ["status:backlog"], .ok [⟨"b1", 4⟩], .ok ()⟩
  else if n = 3 then ⟨.ok [], .ok [], .ok ()⟩
  else ⟨.ok ["status:done"], .ok [⟨"b", 4⟩], .ok ()⟩

/-- Fault-isolation witness environment: issue 2's label fetch raises. -/
def env_c2 : Nat → IssueEnv := fun n =>
  if n = 2 then ⟨.error "boom", .ok [], .ok ()⟩ else env_c2_base n

/-- Fault-isolation witness environment where issue 2 succeeds instead. -/
def env_c2' : Nat → IssueEnv := fun n =>
  if n = 2 then ⟨.ok ["status:done"], .ok [⟨"b2", 4⟩], .ok ()⟩ else env_c2_base n

theorem reconcile_fault_isolation_witness :
    (reconcile om0 4 env_c2 1 3).errors = (reconcile om0 4 env_c2' 1 3).errors + 1
    ∧ (reconcile om0 4 env_c2 1 3).updated + 1 = (reconcile om0 4 env_c2' 1 3).updated
    ∧ (reconcile om0 4 env_c2 1 3).skipped = (reconcile om0 4 env_c2' 1 3).skipped
    ∧ (∀ o : Outcome,
        count_outcome om0 4 env_c2 o
            ((issue_range 1 3).filter (fun n => decide (2 < n)))
          = count_outcome om0 4 env_c2' o
            ((issue_range 1 3).filter (fun n => decide (2 < n)))) :=
  reconcile_fault_isolation om0 4 env_c2 env_c2' 1 3 2 (by decide)
    (fun n hn => by simp [env_c2, env_c2', hn]) (by decide) (by decide)

theorem reconcile_counter_partition_witness :
    ((reconcile om0 4 env0 1 5).updated + (reconcile om0 4 env0 1 5).skipped
        + (reconcile om0 4 env0 1 5).errors = 5 + 1 - 1)
    ∧ (0 < (issue_range 1 5).length)
    ∧ (((run_counts om0 4 env0 ((issue_range 1 5).take (0 + 1))).updated
          = (run_counts om0 4 env0 ((issue_range 1 5).take 0)).updated + 1
        ∧ (run_counts om0 4 env0 ((issue_range 1 5).take (0 + 1))).skipped
          = (run_counts om0 4 env0 ((issue_range 1 5).take 0)).skipped
        ∧ (run_counts om0 4 env0 ((issue_range 1 5).take (0 + 1))).errors
          = (run_counts om0 4 env0 ((issue_range 1 5).take 0)).errors)
      ∨ ((run_counts om0 4 env0 ((issue_range 1 5).take (0 + 1))).updated
          = (run_counts om0 4 env0 ((issue_range 1 5).take 0)).updated
        ∧ (run_counts om0 4 env0 ((issue_range 1 5).take (0 + 1))).skipped
          = (run_counts om0 4 env0 ((issue_range 1 5).take 0)).skipped + 1
        ∧ (run_counts om0 4 env0 ((issue_range 1 5).take (0 + 1))).errors
          = (run_counts om0 4 env0 ((issue_range 1 5).take 0)).errors)
      ∨ ((run_counts om0 4 env0 ((issue_range 1 5).take (0 + 1))).updated
          = (run_counts om0 4 env0 ((issue_range 1 5).take 0)).updated
        ∧ (run_counts om0 4 env0 ((issue_range 1 5).take (0 + 1))).skipped
          = (run_counts om0 4 env0 ((issue_range 1 5).take 0)).skipped
        ∧ (run_counts om0 4 env0 ((issue_range 1 5).take (0 + 1))).errors
          = (run_counts om0 4 env0 ((issue_range 1 5).take 0)).errors + 1)) :=
  ⟨(reconcile_counter_partition om0 4 env0 1 5).1, by decide,
   (reconcile_counter_partition om0 4 env0 1 5).2.1 0 (by decide)⟩

/-! ## Criteria parser and projector theorems -/

lemma criteria_loop_header (line : List Char) (rest : List (List Char))
    (b : Bool) (acc : List Criterion) (h : contains_ac_header line = true) :
    criteria_loop (line :: rest) b acc = criteria_loop rest true acc := by
  simp [criteria_loop, h]

lemma criteria_loop_checkbox (line : List Char) (rest : List (List Char))
    (acc : List Criterion) (ck : Bool) (txt : List Char)
    (h1 : contains_ac_header line = false)
    (h2 : match_checkbox line = some (ck, txt)) :
    criteria_loop (line :: rest) true acc
      = criteria_loop rest true (acc ++ [⟨ck, ⟨txt⟩⟩]) := by
  simp [criteria_loop, h1, h2]

/-- While collecting, a line whose first character is `#` and that does
not itself contain the header substring hits the `break`: the already
collected criteria are returned and the remaining lines are never
examined. -/
lemma criteria_loop_break (line : List Char) (rest : List (List Char))
    (acc : List Criterion) (h1 : line.head? = some '#')
    (h2 : contains_ac_header line = false) :
    criteria_loop (line :: rest) true acc = acc := by
  obtain ⟨c, cs, rfl⟩ : ∃ c cs, line = c :: cs := by
    cases line with
    | nil => simp at h1
    | cons c cs => exact ⟨c, cs, rfl⟩
  have hc : c = '#' := by simpa using h1
  subst hc
  have h3 : match_checkbox ('#' :: cs) = none := rfl
  have h4 : ('#' :: cs).all py_ws = false := by simp [List.all_cons, py_ws]
  simp [criteria_loop, h2, h3, h4]

/-- C7: parsing the example body yields exactly
`[{checked: false, text: "a"}, {checked: true, text: "b"}]`, and for
every list of lines appended after the `## Next` heading the result is
unchanged — checkbox lines after the second heading are excluded. -/
theorem parse_criteria_example :
    parse_acceptance_criteria "## Acceptance Criteria\n- [ ] a\n- [x] b\n## Next"
        = [⟨false, "a"⟩, ⟨true, "b"⟩]
    ∧ ∀ extra : List (List Char),
        criteria_loop ("## Acceptance Criteria".toList :: "- [ ] a".toList ::
            "- [x] b".toList :: "## Next".toList :: extra) false []
          = [⟨false, "a"⟩, ⟨true, "b"⟩] := by
  refine ⟨by decide, fun extra => ?_⟩
  rw [criteria_loop_header _ _ _ _ (by decide),
    criteria_loop_checkbox _ _ _ false ['a'] (by decide) (by decide),
    criteria_loop_checkbox _ _ _ true ['b'] (by decide) (by decide),
    criteria_loop_break _ _ _ (by decide) (by decide)]
  decide

/-- C8 counterexample: a line that begins with `#` but contains
"acceptance criteria" does *not* terminate collection — the header
test runs first and `continue`s — so the checkbox after it is still
collected, contradicting "every line beginning with `#` terminates
collection immediately". -/
theorem criteria_heading_cex :
    ("# acceptance criteria (continued)".toList.head? = some '#')
    ∧ parse_acceptance_criteria
        "Acceptance criteria\n# acceptance criteria (continued)\n- [ ] a"
        = [⟨false, "a"⟩]
    ∧ parse_acceptance_criteria
        "Acceptance criteria\n# acceptance criteria (continued)\n- [ ] a"
        ≠ [] := by decide

/-- C8 (amended): while collecting, a line beginning with `#` that does
not itself contain "acceptance criteria" (case-insensitively)
terminates collection — and the entire scan — immediately, so no
checkbox item on any later line (in particular under any later matching
header) is ever included. -/
theorem criteria_heading_terminates (line : List Char)
    (rest : List (List Char)) (acc : List Criterion)
    (h1 : line.head? = some '#') (h2 : contains_ac_header line = false) :
    criteria_loop (line :: rest) true acc = acc :=
  criteria_loop_break line rest acc h1 h2

theorem criteria_heading_terminates_witness :
    ("# Next".toList.head? = some '#')
    ∧ contains_ac_header "# Next".toList = false
    ∧ criteria_loop ("# Next".toList :: ["- [x] z".toList]) true [⟨true, "k"⟩]
        = [⟨true, "k"⟩] :=
  ⟨by decide, by decide, criteria_heading_terminates _ _ _ (by decide) (by decide)⟩

/-- Concrete open issue with no assignees, no criteria, no epic and no
priority. -/
def bare_open_issue : FIssue :=
  ⟨7, "t", "", [], none, none, none, none, [], none, "OPEN", "u"⟩

/-- Concrete closed issue. -/
def closed_issue : FIssue :=
  ⟨8, "t", "", [], none, none, none, none, [], none, "CLOSED", "u"⟩

/-- C6 counterexample: on an open issue with no assignees, no criteria,
no epic and no priority, `validate_issue` emits exactly three warnings
(no criteria, no epic, no priority) — not four: the assignee check only
warns when assignees are present. -/
theorem validate_warnings_cex :
    (validate_issue bare_open_issue).1 = true
    ∧ (validate_issue bare_open_issue).2.length = 3
    ∧ (validate_issue bare_open_issue).2.length ≠ 4 := by decide

/-- C6 (amended): a closed issue is never valid regardless of its other
fields, and an open issue with no assignees, no acceptance criteria, no
epic label and no priority label is valid with exactly three
warnings. -/
theorem validate_issue_validity (issue : FIssue) :
    (issue.state = "CLOSED" → (validate_issue issue).1 = false)
    ∧ (issue.state = "OPEN" → issue.assignees = [] →
        issue.acceptance_criteria = [] → issue.epic = none →
        issue.priority = none →
        (validate_issue issue).1 = true
          ∧ (validate_issue issue).2.length = 3) := by
  constructor
  · intro h
    simp [validate_issue, h]
  · intro h1 h2 h3 h4 h5
    simp [validate_issue, h1, h2, h3, h4, h5, py_falsy_opt]

theorem validate_issue_validity_witness :
    ((validate_issue closed_issue).1 = false)
    ∧ ((validate_issue bare_open_issue).1 = true
        ∧ (validate_issue bare_open_issue).2.length = 3) :=
  ⟨(validate_issue_validity closed_issue).1 rfl,
   (validate_issue_validity bare_open_issue).2 rfl rfl rfl rfl rfl⟩

/-- C9: `extract_label` returns `none` when no label name starts with
the prefix, and otherwise the suffix (name with the prefix removed) of
the first such label in list order — covering both the unique-label and
the several-labels cases. -/
theorem extract_label_spec (labels : List GLabel) (pre : String) :
    ((∀ l ∈ labels, pre.toList.isPrefixOf l.name.toList = false) →
      extract_label labels pre = none)
    ∧ (∀ l₁ x l₂, labels = l₁ ++ x :: l₂ →
        (∀ l ∈ l₁, pre.toList.isPrefixOf l.name.toList = false) →
        pre.toList.isPrefixOf x.name.toList = true →
        extract_label labels pre
          = some ⟨x.name.toList.drop pre.toList.length⟩) := by
  constructor
  · intro h
    induction labels with
    | nil => rfl
    | cons a t ih =>
      have ha := h a (List.mem_cons_self a t)
      simp only [extract_label, ha, Bool.false_eq_true, if_false]
      exact ih (fun l hl => h l (List.mem_cons_of_mem a hl))
  · intro l₁ x l₂ heq h1 hx
    subst heq
    induction l₁ with
    | nil =>
      simp only [List.nil_append, extract_label, hx, if_true]
    | cons a t ih =>
      have ha := h1 a (List.mem_cons_self a t)
      rw [List.cons_append]
      simp only [extract_label, ha, Bool.false_eq_true, if_false]
      exact ih (fun l hl => h1 l (List.mem_cons_of_mem a hl))

/-! ## Selector lemmas -/

lemma lex_le_refl (a : List Char) : lex_le a a = true := by
  induction a with
  | nil => rfl
  | cons c t ih => simp [lex_le, Nat.lt_irrefl, ih]

lemma lex_le_total (a : List Char) : ∀ b, lex_le a b = true ∨ lex_le b a = true := by
  induction a with
  | nil => intro b; left; rfl
  | cons c t ih =>
    intro b
    cases b with
    | nil => right; rfl
    | cons d u =>
      rcases Nat.lt_trichotomy (char_nat c) (char_nat d) with h | h | h
      · left; simp [lex_le, h]
      · rcases ih u with h2 | h2
        · left; simp [lex_le, h, Nat.lt_irrefl, h2]
        · right; simp [lex_le, h, Nat.lt_irrefl, h2]
      · right; simp [lex_le, h]

lemma lex_le_trans (a : List Char) :
    ∀ b c, lex_le a b = true → lex_le b c = true → lex_le a c = true := by
  induction a with
  | nil => intro b c _ _; rfl
  | cons x xs ih =>
    intro b c hab hbc
    cases b with
    | nil => simp [lex_le] at hab
    | cons y ys =>
      cases c with
      | nil => simp [lex_le] at hbc
      | cons z zs =>
        rcases Nat.lt_trichotomy (char_nat x) (char_nat y) with h1 | h1 | h1
        · rcases Nat.lt_trichotomy (char_nat y) (char_nat z) with h2 | h2 | h2
          · simp [lex_le, show char_nat x < char_nat z from by omega]
          · simp [lex_le, show char_nat x < char_nat z from by omega]
          · simp [lex_le, show ¬ char_nat y < char_nat z from by omega, h2] at hbc
        · rcases Nat.lt_trichotomy (char_nat y) (char_nat z) with h2 | h2 | h2
          · simp [lex_le, show char_nat x < char_nat z from by omega]
          · simp [lex_le, show ¬ char_nat x < char_nat y from by omega,
              show ¬ char_nat y < char_nat x from by omega] at hab
            simp [lex_le, show ¬ char_nat y < char_nat z from by omega,
              show ¬ char_nat z < char_nat y from by omega] at hbc
            simp [lex_le, show ¬ char_nat x < char_nat z from by omega,
              show ¬ char_nat z < char_nat x from by omega]
            exact ih ys zs hab hbc
          · simp [lex_le, show ¬ char_nat y < char_nat z from by omega, h2] at hbc
        · simp [lex_le, show ¬ char_nat x < char_nat y from by omega, h1] at hab

lemma created_le_refl (a : SIssue) : created_le a a = true := lex_le_refl _

lemma created_le_total (a b : SIssue) :
    created_le a b = true ∨ created_le b a = true := lex_le_total _ _

lemma created_le_trans (a b c : SIssue) (h1 : created_le a b = true)
    (h2 : created_le b c = true) : created_le a c = true :=
  lex_le_trans _ _ _ h1 h2

lemma mem_sort_insert (x y : SIssue) (l : List SIssue) :
    y ∈ sort_insert x l ↔ y = x ∨ y ∈ l := by
  induction l with
  | nil => simp [sort_insert]
  | cons z zs ih =>
    by_cases h : created_le z x = true
    · simp only [sort_insert, h, if_true, List.mem_cons, ih]
      tauto
    · simp only [sort_insert, h, if_false, Bool.false_eq_true, List.mem_cons]

lemma sort_insert_ne_nil (x : SIssue) (l : List SIssue) :
    sort_insert x l ≠ [] := by
  cases l with
  | nil => simp [sort_insert]
  | cons z zs =>
    rw [sort_insert]
    split <;> simp

lemma sort_head_min (l : List SIssue) :
    ∀ r : SIssue, (sort_by_createdAt l).head? = some r →
      r ∈ l ∧ ∀ o ∈ l, created_le r o = true := by
  induction l with
  | nil => intro r h; simp [sort_by_createdAt] at h
  | cons x xs ih =>
    intro r h
    rw [sort_by_createdAt] at h
    cases hs : sort_by_createdAt xs with
    | nil =>
      rw [hs] at h
      have hx : x = r := by simpa [sort_insert] using h
      subst hx
      have hxs : xs = [] := by
        cases xs with
        | nil => rfl
        | cons a b => exact absurd hs (sort_insert_ne_nil a (sort_by_createdAt b))
      subst hxs
      exact ⟨List.mem_cons_self x [], fun o ho => by
        rcases List.mem_singleton.mp ho with rfl
        exact created_le_refl o⟩
    | cons y ys =>
      rw [hs] at h
      have hy := ih y (by rw [hs]; rfl)
      by_cases hc : created_le y x = true
      · have hr : y = r := by simpa [sort_insert, hc] using h
        subst hr
        refine ⟨List.mem_cons_of_mem x hy.1, fun o ho => ?_⟩
        rcases List.mem_cons.mp ho with rfl | ho'
        · exact hc
        · exact hy.2 o ho'
      · have hr : x = r := by simpa [sort_insert, hc] using h
        subst hr
        refine ⟨List.mem_cons_self x xs, fun o ho => ?_⟩
        have hxy : created_le x y = true := (created_le_total x y).resolve_right hc
        rcases List.mem_cons.mp ho with rfl | ho'
        · exact created_le_refl o
        · exact created_le_trans x y o hxy (hy.2 o ho')

lemma queried_tiers_go_prefix (env : SelEnv) (ef : Option String) (st : String) :
    ∀ l : List String, ∃ tail, queried_tiers_go env ef st l ++ tail = l := by
  intro l
  induction l with
  | nil => exact ⟨[], rfl⟩
  | cons p ps ih =>
    by_cases h : (select_next_issue env p ef st).isSome
    · exact ⟨ps, by simp [queried_tiers_go, h]⟩
    · obtain ⟨t, ht⟩ := ih
      refine ⟨t, ?_⟩
      simp only [queried_tiers_go, h, if_false, Bool.false_eq_true, List.cons_append, ht]

/-- C3: the fallback cascade consults the tiers in the fixed order
`critical, high, medium, low` (its query trace is always an in-order
front of `PRIORITY_ORDER`) and returns the head of the first non-empty
tier's sorted candidate set; with empty critical and high tiers and a
non-empty medium tier it returns an oldest medium issue and never
queries `low`. -/
theorem select_with_fallback_cascade (env : SelEnv) (ef : Option String)
    (st : String) (ms : List SIssue)
    (hc : env.listIssues (query_labels "critical" ef st) = .ok [])
    (hh : env.listIssues (query_labels "high" ef st) = .ok [])
    (hm : env.listIssues (query_labels "medium" ef st) = .ok ms)
    (hne : ms ≠ []) :
    (∃ r, select_with_fallback env ef st = some r ∧ r ∈ ms
        ∧ ∀ o ∈ ms, created_le r o = true)
    ∧ fallback_queried_tiers env ef st = ["critical", "high", "medium"]
    ∧ "low" ∉ fallback_queried_tiers env ef st
    ∧ (∀ (env' : SelEnv) ef' st', ∃ tail,
        fallback_queried_tiers env' ef' st' ++ tail = PRIORITY_ORDER) := by
  have hcn : select_next_issue env "critical" ef st = none := by
    simp [select_next_issue, hc, sort_by_createdAt]
  have hhn : select_next_issue env "high" ef st = none := by
    simp [select_next_issue, hh, sort_by_createdAt]
  have hmm : select_next_issue env "medium" ef st = (sort_by_createdAt ms).head? := by
    simp [select_next_issue, hm]
  obtain ⟨r, hr⟩ : ∃ r, (sort_by_createdAt ms).head? = some r := by
    cases hms : ms with
    | nil => exact absurd hms hne
    | cons a b =>
      cases hsm : sort_by_createdAt (a :: b) with
      | nil => exact absurd hsm (sort_insert_ne_nil a (sort_by_createdAt b))
      | cons u us => exact ⟨u, by simp [hms, hsm]⟩
  have hmin := sort_head_min ms r hr
  have hq : fallback_queried_tiers env ef st = ["critical", "high", "medium"] := by
    simp [fallback_queried_tiers, queried_tiers_go, PRIORITY_ORDER, hcn, hhn, hmm, hr]
  refine ⟨⟨r, ?_, hmin.1, hmin.2⟩, hq, ?_, ?_⟩
  · simp [select_with_fallback, fallback_go, PRIORITY_ORDER, hcn, hhn, hmm, hr]
  · rw [hq]; decide
  · exact fun env' ef' st' => queried_tiers_go_prefix env' ef' st' PRIORITY_ORDER

/-- Medium-tier issue created later. -/
def iss_a : SIssue := ⟨10, "A", "2024-01-05", [⟨"priority:medium"⟩], []⟩

/-- Medium-tier issue created earlier (the oldest). -/
def iss_b : SIssue := ⟨11, "B", "2024-01-02", [⟨"priority:medium"⟩], []⟩

/-- Witness environment: medium tier holds two issues, all other
queries return empty lists. -/
def env_med : SelEnv :=
  ⟨fun q => if q = query_labels "medium" none "backlog" then .ok [iss_a, iss_b]
    else .ok []⟩

theorem select_with_fallback_cascade_witness :
    (∃ r, select_with_fallback env_med none "backlog" = some r
        ∧ r ∈ [iss_a, iss_b] ∧ ∀ o ∈ [iss_a, iss_b], created_le r o = true)
    ∧ fallback_queried_tiers env_med none "backlog" = ["critical", "high", "medium"]
    ∧ "low" ∉ fallback_queried_tiers env_med none "backlog"
    ∧ (∀ (env' : SelEnv) ef' st', ∃ tail,
        fallback_queried_tiers env' ef' st' ++ tail = PRIORITY_ORDER) :=
  select_with_fallback_cascade env_med none "backlog" [iss_a, iss_b]
    rfl rfl rfl (by decide)

/-- C4: with an explicit priority `main` queries exactly that one tier;
if the tier's candidate set is empty the result is absent and no other
tier is ever queried. -/
theorem main_select_explicit (env : SelEnv) (p : String) (ef : Option String)
    (st : String) (h : env.listIssues (query_labels p ef st) = .ok []) :
    main_select env (some p) ef st = none
    ∧ main_queried_tiers env (some p) ef st = [p]
    ∧ ∀ t ∈ main_queried_tiers env (some p) ef st, t = p := by
  refine ⟨?_, rfl, ?_⟩
  · simp [main_select, select_next_issue, h, sort_by_createdAt]
  · intro t ht
    simpa [main_queried_tiers] using ht

/-- Environment whose every query returns an empty list. -/
def sel_env_empty : SelEnv := ⟨fun _ => .ok []⟩

/-- Environment whose every query fails with a transport error. -/
def sel_env_fail : SelEnv := ⟨fun _ => .error "network error"⟩

theorem main_select_explicit_witness :
    main_select sel_env_empty (some "low") none "backlog" = none
    ∧ main_queried_tiers sel_env_empty (some "low") none "backlog" = ["low"]
    ∧ ∀ t ∈ main_queried_tiers sel_env_empty (some "low") none "backlog",
        t = "low" :=
  main_select_explicit sel_env_empty "low" none "backlog" rfl

/-- C5 counterexample: the exit status does not distinguish the absent
outcomes — explicit-priority-empty, cascade-exhausted and transport
failure all exit with status 1. -/
theorem select_exit_cex :
    main_exit sel_env_empty (some "low") none "backlog" = 1
    ∧ main_exit sel_env_empty none none "backlog" = 1
    ∧ main_exit sel_env_fail none none "backlog" = 1
    ∧ main_exit sel_env_empty (some "low") none "backlog"
        = main_exit sel_env_empty none none "backlog"
    ∧ main_exit sel_env_empty none none "backlog"
        = main_exit sel_env_fail none none "backlog" := by decide

/-- Environment with a single selectable issue. -/
def iss_w : SIssue := ⟨5, "W", "2024-02-02", [⟨"priority:critical"⟩], []⟩

def sel_env_one : SelEnv := ⟨fun _ => .ok [iss_w]⟩

/-- C5 (amended): the selector's exit status is 0 exactly when an issue
was selected and 1 in every absent outcome; explicit-priority-empty,
cascade-exhausted and transport-failure all share exit status 1. -/
theorem main_exit_uniform (env₁ env₂ env₃ env₄ : SelEnv) (p : String)
    (ef : Option String) (st : String) (m : String) (parg : Option String)
    (i : SIssue)
    (h1 : env₁.listIssues (query_labels p ef st) = .ok [])
    (h2 : ∀ q ∈ PRIORITY_ORDER, env₂.listIssues (query_labels q ef st) = .ok [])
    (h3 : ∀ q, env₃.listIssues q = .error m)
    (h4 : main_select env₄ parg ef st = some i) :
    main_exit env₁ (some p) ef st = 1
    ∧ main_exit env₂ none ef st = 1
    ∧ main_exit env₃ none ef st = 1
    ∧ main_exit env₄ parg ef st = 0 := by
  refine ⟨?_, ?_, ?_, ?_⟩
  · simp [main_exit, main_select, select_next_issue, h1, sort_by_createdAt]
  · simp [main_exit, main_select, select_with_fallback, fallback_go,
      PRIORITY_ORDER, select_next_issue, sort_by_createdAt,
      h2 "critical" (by decide), h2 "high" (by decide),
      h2 "medium" (by decide), h2 "low" (by decide)]
  · simp [main_exit, main_select, select_with_fallback, fallback_go,
      PRIORITY_ORDER, select_next_issue, h3]
  · simp [main_exit, h4]

theorem main_exit_uniform_witness :
    main_exit sel_env_empty (some "low") none "backlog" = 1
    ∧ main_exit sel_env_empty none none "backlog" = 1
    ∧ main_exit sel_env_fail none none "backlog" = 1
    ∧ main_exit sel_env_one (some "critical") none "backlog" = 0 :=
  main_exit_uniform sel_env_empty sel_env_empty sel_env_fail sel_env_one
    "low" none "backlog" "network error" (some "critical") iss_w
    rfl (fun _ _ => rfl) (fun _ => rfl) rfl

theorem extract_label_spec_witness :
    extract_label [⟨"epic:auth"⟩] "priority:" = none
    ∧ extract_label [⟨"epic:auth"⟩, ⟨"priority:high"⟩, ⟨"priority:low"⟩]
        "priority:"
        = some ⟨"priority:high".toList.drop "priority:".toList.length⟩ :=
  ⟨(extract_label_spec [⟨"epic:auth"⟩] "priority:").1 (by decide),
   (extract_label_spec [⟨"epic:auth"⟩, ⟨"priority:high"⟩, ⟨"priority:low"⟩]
       "priority:").2 [⟨"epic:auth"⟩] ⟨"priority:high"⟩ [⟨"priority:low"⟩]
     rfl (by decide) (by decide)⟩
